import Mathlib

/-!
Verification of the crash-reporter lifecycle module
(`shell/browser/api/electron_api_crash_reporter.cc`).

The module is embedded as a pure state machine:
* `PState` holds the process-wide mutable state (initialization flag,
  consent, the global crash-key table, the backend crash-key table,
  the backend configuration/initialization records) together with an
  ordered trace of the externally visible effects, used to reason about
  the order of side effects.
* `Env` holds the external facts the code consults: whether the
  structured (Crashpad) backend is enabled, whether the platform is
  macOS/Windows, the process-type string taken from the command line,
  and the crash-dump directory resolved by the path service.
* `std::map<std::string, std::string>` values are embedded as
  association lists of key/value pairs; `insertKey` is the overwriting
  insertion of `map::operator[] =` and `eraseKey` is `map::erase`.
-/

namespace CrashReporter

/-- One entry list standing for a `std::map<std::string, std::string>`. -/
abbrev KeyTable := List (String × String)

/-- Character order by code point, the byte order `std::string`
comparison uses on its units. -/
def charLt (a b : Char) : Bool := Nat.blt a.toNat b.toNat

/-- Lexicographic order on character lists, the order of
`std::less<std::string>` that keys of a `std::map` follow. -/
def charListLt : List Char → List Char → Bool
  | _, [] => false
  | [], _ :: _ => true
  | a :: as, b :: bs =>
    if charLt a b then true
    else if charLt b a then false
    else charListLt as bs

/-- `std::string` comparison `a < b`. -/
def strLt (a b : String) : Bool := charListLt a.data b.data

/-- Overwriting insertion, the embedding of `m[k] = v` on `std::map`:
keeps the list sorted by key when it already is, replaces the value when
the key is present. -/
def insertKey : KeyTable → String → String → KeyTable
  | [], k, v => [(k, v)]
  | (k0, v0) :: rest, k, v =>
    if strLt k k0 then (k, v) :: (k0, v0) :: rest
    else if k = k0 then (k, v) :: rest
    else (k0, v0) :: insertKey rest k v

/-- Removal of a key, the embedding of `m.erase(k)` on `std::map`:
removes the first entry with that key, no-op when absent. -/
def eraseKey : KeyTable → String → KeyTable
  | [], _ => []
  | (k0, v0) :: rest, k =>
    if k = k0 then rest else (k0, v0) :: eraseKey rest k

/-- Lookup of a key in the table (first match). -/
def lookupKey : KeyTable → String → Option String
  | [], _ => none
  | (k0, v0) :: rest, k => if k = k0 then some v0 else lookupKey rest k

/-- Inserting every pair of `m` (in order) into `t`, each insertion
overwriting any existing entry for its key: the embedding of the
merge loop `for (pair : m) t[pair.first] = pair.second;`. -/
def mergeKeys (t : KeyTable) (m : KeyTable) : KeyTable :=
  m.foldl (fun acc p => insertKey acc p.1 p.2) t

/-- The table has no repeated key (always true of a `std::map`). -/
def NoDupKeys (t : KeyTable) : Prop := (t.map Prod.fst).Nodup

instance : DecidablePred NoDupKeys := fun t =>
  inferInstanceAs (Decidable ((t.map Prod.fst).Nodup))

/-- Externally visible side effects of the module, in the order they are
performed. -/
inductive Event where
  | consentSet (upload : Bool)
  | initCrashpad (isEmbedder : Bool) (role : String)
  | setUploadURL (url : String)
  | globalMerge (k v : String)
  | setCrashKey (k v : String)
  | initBreakpad (role : String)
  deriving DecidableEq, Repr

/-- Process-wide state of the crash-reporter module, together with a
trace of the effects performed so far. -/
structure PState where
  /-- `g_crash_reporter_initialized`. -/
  initialized : Bool
  /-- Consent recorded in `ElectronCrashReporterClient` (ConsentState). -/
  consent : Bool
  /-- The table behind `GetGlobalCrashKeysMutable()`. -/
  globalCrashKeys : KeyTable
  /-- Modelled from the spec: the active backend's crash-key table,
  written through `electron::crash_keys::SetCrashKey` and
  `electron::crash_keys::ClearCrashKey`, whose definitions live outside
  this file's source (`shell/common/crash_keys.cc`); per the spec they
  are an idempotent upsert and a remove-if-present on that table. -/
  backendKeys : KeyTable
  /-- URL passed to `breakpad::SetUploadURL`, when it has been called. -/
  breakpadURL : Option String
  /-- Process type passed to `breakpad::InitCrashReporter`, when called. -/
  breakpadInit : Option String
  /-- Arguments passed to `crash_reporter::InitializeCrashpad`, when
  called: (`process_type.empty()`, `process_type`). -/
  crashpadInit : Option (Bool × String)
  /-- Ordered trace of the effects performed so far. -/
  trace : List Event
  deriving DecidableEq, Repr

/-- State at process start: flag clear, consent unset (false), all
tables empty, no backend configured. -/
def initState : PState :=
  { initialized := false
    consent := false
    globalCrashKeys := []
    backendKeys := []
    breakpadURL := none
    breakpadInit := none
    crashpadInit := none
    trace := [] }

/-- External facts consulted by the module. -/
structure Env where
  /-- `crash_reporter::IsCrashpadEnabled()`. -/
  crashpadEnabled : Bool
  /-- Whether the platform is macOS or Windows
  (`defined(OS_MACOSX) || defined(OS_WIN)`). -/
  isMacOrWin : Bool
  /-- `command_line->GetSwitchValueASCII(::switches::kProcessType)`. -/
  processType : String
  /-- Directory returned by
  `base::PathService::Get(chrome::DIR_CRASH_DUMPS, ...)`. -/
  crashDumpsDir : String
  deriving DecidableEq, Repr

/-- Arguments of `Start`. -/
structure StartArgs where
  submitUrl : String
  crashesDirectory : String
  uploadToServer : Bool
  ignoreSystemCrashHandler : Bool
  rateLimit : Bool
  compress : Bool
  extraGlobal : KeyTable
  extra : KeyTable
  deriving DecidableEq, Repr

/-- `IsCrashReporterEnabled` (line 57): pure read of the flag. -/
def IsCrashReporterEnabled (s : PState) : Bool := s.initialized

/-- `GetGlobalCrashKeys` (line 62, Linux only): read-only view of the
process-wide global key table. -/
def GetGlobalCrashKeys (s : PState) : KeyTable := s.globalCrashKeys

/-- `SetUploadToServer` (line 123): forwards the flag to the consent
store. -/
def SetUploadToServer (upload : Bool) (s : PState) : PState :=
  { s with consent := upload, trace := s.trace ++ [Event.consentSet upload] }

/-- `GetUploadToServer` (line 127): reads the consent store. -/
def GetUploadToServer (s : PState) : Bool := s.consent

/-- Modelled from the spec: `electron::crash_keys::SetCrashKey`, whose
definition (`shell/common/crash_keys.cc`) is outside this file's source;
per the spec it is an idempotent upsert into the active backend's key
table. -/
def SetCrashKey (k v : String) (s : PState) : PState :=
  { s with backendKeys := insertKey s.backendKeys k v
           trace := s.trace ++ [Event.setCrashKey k v] }

/-- Modelled from the spec: `electron::crash_keys::ClearCrashKey`, whose
definition (`shell/common/crash_keys.cc`) is outside this file's source;
per the spec it removes a key and is a no-op (not an error) when the key
is absent. -/
def ClearCrashKey (k : String) (s : PState) : PState :=
  { s with backendKeys := eraseKey s.backendKeys k }

/-- `SetCrashKeysFromMap` (line 117): applies every pair of the map as a
crash key on the active backend. -/
def SetCrashKeysFromMap (extra : KeyTable) (s : PState) : PState :=
  extra.foldl (fun st p => SetCrashKey p.1 p.2 st) s

/-- The merge loop of `Start` (lines 151-154): `extra_global` entries
merged into the process-wide global key table. -/
def mergeGlobalStep (st : PState) (p : String × String) : PState :=
  { st with globalCrashKeys := insertKey st.globalCrashKeys p.1 p.2
            trace := st.trace ++ [Event.globalMerge p.1 p.2] }

/-- `Start` (lines 131-159). -/
def Start (env : Env) (a : StartArgs) (s : PState) : PState :=
  if s.initialized then s
  else
    let s1 := { s with initialized := true }
    let s2 := SetUploadToServer a.uploadToServer s1
    let process_type := env.processType
    if env.crashpadEnabled then
      { s2 with
        crashpadInit := some (process_type.isEmpty, process_type)
        trace := s2.trace ++ [Event.initCrashpad process_type.isEmpty process_type] }
    else
      let s3 := { s2 with
                  breakpadURL := some a.submitUrl
                  trace := s2.trace ++ [Event.setUploadURL a.submitUrl] }
      let s4 := a.extraGlobal.foldl mergeGlobalStep s3
      let s5 := SetCrashKeysFromMap a.extra s4
      let s6 := SetCrashKeysFromMap a.extraGlobal s5
      { s6 with
        breakpadInit := some process_type
        trace := s6.trace ++ [Event.initBreakpad process_type] }

/-- One crash report in the backing store
(`UploadList::UploadInfo`, restricted to the fields read here). -/
structure UploadInfo where
  upload_time : Int
  upload_id : String
  deriving DecidableEq, Repr

/-- One record handed to the callback of `GetUploadedReports`: the
object built with `.Set("date", upload.upload_time)` and
`.Set("id", upload.upload_id)`. -/
structure UploadRecord where
  date : Int
  id : String
  deriving DecidableEq, Repr

/-- Modelled from the spec: `UploadList::GetUploads(max_count, &out)`,
defined outside this file's source (`components/upload_list`); per the
spec it reads up to `max_count` most-relevant entries of the loaded
store, in the store's order. A missing or failed store loads as the
empty list. -/
def GetUploads (maxCount : Nat) (store : List UploadInfo) : List UploadInfo :=
  store.take maxCount

/-- `GetUploadedReports` (lines 94-115), with `UploadList::Load`
modelled from the spec as completing exactly once with the store's
records (the empty list for a missing or empty store, never an error).
The result is the ordered list of the callback's invocations: each
element is the value of `callback` at the argument it was invoked
with. -/
def GetUploadedReports {α : Type} (store : List UploadInfo)
    (callback : List UploadRecord → α) : List α :=
  [callback ((GetUploads 100 store).map
      (fun u => { date := u.upload_time, id := u.upload_id }))]

/-- The fixed reporter-log filename
(`CrashUploadList::kReporterLogFilename`, an external constant of
`components/upload_list`). -/
def kReporterLogFilename : String := "uploads.log"

/-- The reader constructed by `CreateCrashUploadList`. -/
inductive UploadListKind where
  | crashpad
  | textLog (path : String)
  deriving DecidableEq, Repr

/-- `CreateCrashUploadList` (lines 77-92). -/
def CreateCrashUploadList (env : Env) : UploadListKind :=
  if env.isMacOrWin then UploadListKind.crashpad
  else if env.crashpadEnabled then UploadListKind.crashpad
  else UploadListKind.textLog (env.crashDumpsDir ++ "/" ++ kReporterLogFilename)

/-- The operations of the exposed call surface (`Initialize`,
lines 161-179) that mutate module state. -/
inductive Op where
  | start (env : Env) (a : StartArgs)
  | setUploadToServer (b : Bool)
  | addExtraParameter (k v : String)
  | removeExtraParameter (k : String)
  deriving DecidableEq, Repr

/-- One step of the exposed call surface. -/
def applyOp (s : PState) : Op → PState
  | Op.start env a => Start env a s
  | Op.setUploadToServer b => SetUploadToServer b s
  | Op.addExtraParameter k v => SetCrashKey k v s
  | Op.removeExtraParameter k => ClearCrashKey k s

/-- Running a sequence of exposed operations. -/
def runOps (s : PState) (ops : List Op) : PState :=
  ops.foldl applyOp s

/-! ## Lemmas about the key-table operations -/

theorem charLt_irrefl (a : Char) : charLt a a = false := by
  simp only [charLt, Bool.eq_false_iff, ne_eq, Nat.blt_eq]
  exact Nat.lt_irrefl _

theorem charListLt_irrefl (l : List Char) : charListLt l l = false := by
  induction l with
  | nil => rfl
  | cons a as ih => simp [charListLt, charLt_irrefl, ih]

theorem strLt_irrefl (a : String) : strLt a a = false :=
  charListLt_irrefl a.data

theorem lookupKey_insertKey_self (t : KeyTable) (k v : String) :
    lookupKey (insertKey t k v) k = some v := by
  induction t with
  | nil => simp [insertKey, lookupKey]
  | cons p rest ih =>
    obtain ⟨k0, v0⟩ := p
    by_cases hlt : strLt k k0 = true
    · simp [insertKey, hlt, lookupKey]
    · by_cases heq : k = k0
      · simp [insertKey, hlt, heq, lookupKey, strLt_irrefl]
      · simp [insertKey, hlt, heq, lookupKey, ih]

theorem lookupKey_insertKey_ne (t : KeyTable) (k v q : String) (h : q ≠ k) :
    lookupKey (insertKey t k v) q = lookupKey t q := by
  induction t with
  | nil => simp [insertKey, lookupKey, h]
  | cons p rest ih =>
    obtain ⟨k0, v0⟩ := p
    by_cases hlt : strLt k k0 = true
    · simp [insertKey, hlt, lookupKey, h]
    · by_cases heq : k = k0
      · subst heq
        simp [insertKey, hlt, lookupKey, h]
      · by_cases hq : q = k0
        · simp [insertKey, hlt, heq, lookupKey, hq]
        · simp [insertKey, hlt, heq, lookupKey, hq, ih]

theorem insertKey_insertKey_same_key (t : KeyTable) (k v1 v2 : String) :
    insertKey (insertKey t k v1) k v2 = insertKey t k v2 := by
  induction t with
  | nil => simp [insertKey, strLt_irrefl]
  | cons p rest ih =>
    obtain ⟨k0, v0⟩ := p
    by_cases hlt : strLt k k0 = true
    · simp [insertKey, hlt, strLt_irrefl]
    · by_cases heq : k = k0
      · simp [insertKey, hlt, heq, strLt_irrefl]
      · simp [insertKey, hlt, heq, ih]

theorem eraseKey_absent (t : KeyTable) (k : String)
    (h : lookupKey t k = none) : eraseKey t k = t := by
  induction t with
  | nil => simp [eraseKey]
  | cons p rest ih =>
    obtain ⟨k0, v0⟩ := p
    by_cases heq : k = k0
    · simp [lookupKey, heq] at h
    · simp [lookupKey, heq] at h
      simp [eraseKey, heq, ih h]

theorem lookupKey_none_of_not_memKeys (t : KeyTable) (k : String)
    (h : k ∉ t.map Prod.fst) : lookupKey t k = none := by
  induction t with
  | nil => simp [lookupKey]
  | cons p rest ih =>
    obtain ⟨k0, v0⟩ := p
    simp only [List.map_cons, List.mem_cons] at h
    push_neg at h
    simp [lookupKey, h.1, ih h.2]

theorem lookupKey_eraseKey_self (t : KeyTable) (k : String)
    (hnd : NoDupKeys t) : lookupKey (eraseKey t k) k = none := by
  induction t with
  | nil => simp [eraseKey, lookupKey]
  | cons p rest ih =>
    obtain ⟨k0, v0⟩ := p
    simp only [NoDupKeys, List.map_cons, List.nodup_cons] at hnd
    by_cases heq : k = k0
    · subst heq
      simp only [eraseKey, if_pos rfl]
      exact lookupKey_none_of_not_memKeys rest k hnd.1
    · simp only [eraseKey, if_neg heq, lookupKey, if_neg heq]
      exact ih hnd.2

theorem lookupKey_eraseKey_ne (t : KeyTable) (k q : String) (h : q ≠ k) :
    lookupKey (eraseKey t k) q = lookupKey t q := by
  induction t with
  | nil => simp [eraseKey]
  | cons p rest ih =>
    obtain ⟨k0, v0⟩ := p
    by_cases heq : k = k0
    · subst heq
      simp [eraseKey, lookupKey, h]
    · simp [eraseKey, heq, lookupKey, ih]

/-! ## Characterizations of the two loops inside `Start` -/

theorem foldl_mergeGlobalStep (l : KeyTable) : ∀ (s : PState),
    l.foldl mergeGlobalStep s =
      { s with globalCrashKeys := mergeKeys s.globalCrashKeys l
               trace := s.trace ++ l.map (fun p => Event.globalMerge p.1 p.2) } := by
  induction l with
  | nil => intro s; simp [mergeKeys]
  | cons p rest ih =>
    intro s
    obtain ⟨k, v⟩ := p
    simp only [List.foldl_cons, ih, mergeGlobalStep, mergeKeys, List.map_cons,
      List.foldl_cons, List.append_assoc, List.cons_append, List.nil_append]

theorem SetCrashKeysFromMap_spec (l : KeyTable) : ∀ (s : PState),
    SetCrashKeysFromMap l s =
      { s with backendKeys := mergeKeys s.backendKeys l
               trace := s.trace ++ l.map (fun p => Event.setCrashKey p.1 p.2) } := by
  induction l with
  | nil => intro s; simp [SetCrashKeysFromMap, mergeKeys]
  | cons p rest ih =>
    intro s
    obtain ⟨k, v⟩ := p
    rw [SetCrashKeysFromMap, List.foldl_cons]
    have hstep := ih (SetCrashKey k v s)
    rw [SetCrashKeysFromMap] at hstep
    rw [hstep]
    simp [SetCrashKey, mergeKeys, List.append_assoc]

/-! ## Closed forms of `Start` on its three control paths -/

theorem Start_already_initialized (env : Env) (a : StartArgs) (s : PState)
    (h : s.initialized = true) : Start env a s = s := by
  simp [Start, h]

theorem Start_crashpad_path (env : Env) (a : StartArgs) (s : PState)
    (hinit : s.initialized = false) (hcp : env.crashpadEnabled = true) :
    Start env a s =
      { s with initialized := true
               consent := a.uploadToServer
               crashpadInit := some (env.processType.isEmpty, env.processType)
               trace := s.trace ++
                 [Event.consentSet a.uploadToServer,
                  Event.initCrashpad env.processType.isEmpty env.processType] } := by
  simp [Start, hinit, hcp, SetUploadToServer]

theorem Start_legacy_path (env : Env) (a : StartArgs) (s : PState)
    (hinit : s.initialized = false) (hcp : env.crashpadEnabled = false) :
    Start env a s =
      { s with initialized := true
               consent := a.uploadToServer
               breakpadURL := some a.submitUrl
               globalCrashKeys := mergeKeys s.globalCrashKeys a.extraGlobal
               backendKeys := mergeKeys (mergeKeys s.backendKeys a.extra) a.extraGlobal
               breakpadInit := some env.processType
               trace := s.trace ++
                 [Event.consentSet a.uploadToServer, Event.setUploadURL a.submitUrl] ++
                 a.extraGlobal.map (fun p => Event.globalMerge p.1 p.2) ++
                 a.extra.map (fun p => Event.setCrashKey p.1 p.2) ++
                 a.extraGlobal.map (fun p => Event.setCrashKey p.1 p.2) ++
                 [Event.initBreakpad env.processType] } := by
  simp only [Start, hinit, hcp, Bool.false_eq_true, if_false, SetUploadToServer,
    foldl_mergeGlobalStep, SetCrashKeysFromMap_spec]
  simp [List.append_assoc]

/-! ## Preservation lemmas for the exposed call surface -/

theorem applyOp_preserves_initialized (s : PState) (op : Op)
    (h : s.initialized = true) : (applyOp s op).initialized = true := by
  cases op with
  | start env a => simp [applyOp, Start_already_initialized env a s h, h]
  | setUploadToServer b => simp [applyOp, SetUploadToServer, h]
  | addExtraParameter k v => simp [applyOp, SetCrashKey, h]
  | removeExtraParameter k => simp [applyOp, ClearCrashKey, h]

theorem runOps_preserves_initialized (ops : List Op) : ∀ (s : PState),
    s.initialized = true → (runOps s ops).initialized = true := by
  induction ops with
  | nil => intro s h; simpa [runOps] using h
  | cons op rest ih =>
    intro s h
    simp only [runOps, List.foldl_cons] at ih ⊢
    exact ih (applyOp s op) (applyOp_preserves_initialized s op h)

/-- An operation other than `setUploadToServer` leaves the consent value
unchanged once the reporter is initialized (so a later `start` is a
no-op). -/
theorem applyOp_preserves_consent (s : PState) (op : Op)
    (hinit : s.initialized = true)
    (hop : ∀ b, op ≠ Op.setUploadToServer b) :
    (applyOp s op).consent = s.consent := by
  cases op with
  | start env a => simp [applyOp, Start_already_initialized env a s hinit]
  | setUploadToServer b => exact absurd rfl (hop b)
  | addExtraParameter k v => simp [applyOp, SetCrashKey]
  | removeExtraParameter k => simp [applyOp, ClearCrashKey]

theorem runOps_preserves_consent (ops : List Op) : ∀ (s : PState),
    s.initialized = true →
    (∀ b, Op.setUploadToServer b ∉ ops) →
    (runOps s ops).consent = s.consent := by
  induction ops with
  | nil => intro s _ _; simp [runOps]
  | cons op rest ih =>
    intro s hinit hops
    simp only [runOps, List.foldl_cons] at ih ⊢
    have hop : ∀ b, op ≠ Op.setUploadToServer b := by
      intro b hb
      exact hops b (by simp [hb])
    have hrest : ∀ b, Op.setUploadToServer b ∉ rest := by
      intro b hb
      exact hops b (by simp [hb])
    rw [ih (applyOp s op) (applyOp_preserves_initialized s op hinit) hrest,
      applyOp_preserves_consent s op hinit hop]

/-! ## Concrete fixtures used by the witness theorems -/

/-- A Linux-like environment on the legacy (Breakpad) path. -/
def envLegacy : Env :=
  { crashpadEnabled := false
    isMacOrWin := false
    processType := "renderer"
    crashDumpsDir := "/tmp/dumps" }

/-- An environment on the structured (Crashpad) path. -/
def envCrashpad : Env :=
  { crashpadEnabled := true
    isMacOrWin := false
    processType := ""
    crashDumpsDir := "/tmp/dumps" }

/-- A macOS/Windows-like environment. -/
def envMacWin : Env :=
  { crashpadEnabled := false
    isMacOrWin := true
    processType := ""
    crashDumpsDir := "/tmp/dumps" }

/-- The `Start` arguments of the spec's scenario. -/
def argsA : StartArgs :=
  { submitUrl := "https://example.test/submit"
    crashesDirectory := "/tmp/crashes"
    uploadToServer := true
    ignoreSystemCrashHandler := false
    rateLimit := true
    compress := false
    extraGlobal := [("env", "prod")]
    extra := [("build", "123")] }

/-! ## Claim theorems -/

/-- C1: for every sequence of `Start` calls, only the first call's
arguments take effect: a `Start` call on an initialized state returns
the state unchanged (no effect on the flag, consent, key tables,
backend records or trace); `IsCrashReporterEnabled()` is false in the
initial process state, becomes true after any first `Start` call, and
stays true under every further sequence of exposed operations. -/
theorem start_only_first_call_takes_effect :
    (∀ (env : Env) (a : StartArgs) (s : PState),
        s.initialized = true → Start env a s = s)
    ∧ IsCrashReporterEnabled initState = false
    ∧ (∀ (env : Env) (a : StartArgs) (s : PState),
        IsCrashReporterEnabled (Start env a s) = true)
    ∧ (∀ (ops : List Op) (s : PState),
        IsCrashReporterEnabled s = true →
        IsCrashReporterEnabled (runOps s ops) = true) := by
  refine ⟨Start_already_initialized, rfl, ?_, fun ops s h => runOps_preserves_initialized ops s h⟩
  intro env a s
  by_cases h : s.initialized = true
  · simp [IsCrashReporterEnabled, Start_already_initialized env a s h, h]
  · have hf : s.initialized = false := by simpa using h
    by_cases hcp : env.crashpadEnabled = true
    · simp [IsCrashReporterEnabled, Start_crashpad_path env a s hf hcp]
    · have hcf : env.crashpadEnabled = false := by simpa using hcp
      simp [IsCrashReporterEnabled, Start_legacy_path env a s hf hcf]

/-- Witness for C1 at concrete inputs: a second `Start` call on the
state reached by a first `Start` is the identity, and the enabled flag
stays true after further operations. -/
theorem start_only_first_call_takes_effect_witness :
    Start envLegacy argsA (Start envLegacy argsA initState) =
      Start envLegacy argsA initState
    ∧ IsCrashReporterEnabled
        (runOps (Start envLegacy argsA initState)
          [Op.addExtraParameter "k" "v"]) = true :=
  ⟨start_only_first_call_takes_effect.1 envLegacy argsA
      (Start envLegacy argsA initState) (by decide),
   start_only_first_call_takes_effect.2.2.2 [Op.addExtraParameter "k" "v"]
      (Start envLegacy argsA initState)
      (start_only_first_call_takes_effect.2.2.1 envLegacy argsA initState)⟩

/-- The sequence of records handed to the callback of
`GetUploadedReports` for a given backing store. -/
def reportsFor (store : List UploadInfo) : List UploadRecord :=
  (GetUploads 100 store).map (fun u => { date := u.upload_time, id := u.upload_id })

/-- C2: for every backing store, `GetUploadedReports cb` invokes `cb`
exactly once (the invocation trace is a one-element list), with a
sequence of at most 100 records, each record carrying the date and id
of a stored upload; a missing or empty store still yields exactly one
invocation, with the empty sequence, never an error. -/
theorem getUploadedReports_single_callback :
    ∀ (store : List UploadInfo) (α : Type) (cb : List UploadRecord → α),
      GetUploadedReports store cb = [cb (reportsFor store)]
      ∧ (reportsFor store).length ≤ 100
      ∧ reportsFor store =
          (store.take 100).map (fun u => { date := u.upload_time, id := u.upload_id })
      ∧ (store = [] → GetUploadedReports store cb = [cb []]) := by
  intro store α cb
  refine ⟨rfl, ?_, rfl, ?_⟩
  · simp only [reportsFor, GetUploads, List.length_map, List.length_take]
    omega
  · intro h
    subst h
    rfl

/-- Witness for C2: the empty store produces exactly one callback
invocation carrying the empty sequence. -/
theorem getUploadedReports_single_callback_witness :
    GetUploadedReports ([] : List UploadInfo) (fun rs => rs) = [[]] :=
  (getUploadedReports_single_callback [] (List UploadRecord) (fun rs => rs)).2.2.2 rfl

/-- C3: on a first `Start` call with the structured backend disabled,
the legacy path performs, in order: recording consent, setting the
legacy submission URL to `submitUrl`, merging every pair of
`extraGlobal` into the process-wide global key table (overwriting
existing keys, via `insertKey`), applying every pair of `extra` and
then every pair of `extraGlobal` as crash keys on the active backend,
and finally initializing the legacy backend with the process role. -/
theorem start_legacy_steps_in_order (env : Env) (a : StartArgs) (s : PState)
    (hinit : s.initialized = false) (hcp : env.crashpadEnabled = false) :
    Start env a s =
      { s with initialized := true
               consent := a.uploadToServer
               breakpadURL := some a.submitUrl
               globalCrashKeys := mergeKeys s.globalCrashKeys a.extraGlobal
               backendKeys := mergeKeys (mergeKeys s.backendKeys a.extra) a.extraGlobal
               breakpadInit := some env.processType
               trace := s.trace ++
                 [Event.consentSet a.uploadToServer, Event.setUploadURL a.submitUrl] ++
                 a.extraGlobal.map (fun p => Event.globalMerge p.1 p.2) ++
                 a.extra.map (fun p => Event.setCrashKey p.1 p.2) ++
                 a.extraGlobal.map (fun p => Event.setCrashKey p.1 p.2) ++
                 [Event.initBreakpad env.processType] } :=
  Start_legacy_path env a s hinit hcp

/-- Witness for C3 at the spec's scenario arguments, with the resulting
state written out in full. -/
theorem start_legacy_steps_in_order_witness :
    Start envLegacy argsA initState =
      { initialized := true
        consent := true
        globalCrashKeys := [("env", "prod")]
        backendKeys := [("build", "123"), ("env", "prod")]
        breakpadURL := some "https://example.test/submit"
        breakpadInit := some "renderer"
        crashpadInit := none
        trace := [Event.consentSet true,
                  Event.setUploadURL "https://example.test/submit",
                  Event.globalMerge "env" "prod",
                  Event.setCrashKey "build" "123",
                  Event.setCrashKey "env" "prod",
                  Event.initBreakpad "renderer"] } := by
  have h := start_legacy_steps_in_order envLegacy argsA initState rfl rfl
  rw [h]
  rfl

/-- C4: on a first `Start` call, on both backend paths, the
`uploadToServer` argument is recorded into the consent state before the
backend branch runs (in the trace, the consent event precedes the
backend-initialization event); afterward `GetUploadToServer()` returns
that value, and keeps returning it across any further sequence of
exposed operations that contains no `setUploadToServer` call. -/
theorem start_records_consent_before_branch (env : Env) (a : StartArgs)
    (s : PState) (hinit : s.initialized = false) :
    GetUploadToServer (Start env a s) = a.uploadToServer
    ∧ (∃ rest : List Event,
        (Start env a s).trace =
          s.trace ++ Event.consentSet a.uploadToServer :: rest
        ∧ (if env.crashpadEnabled then
            Event.initCrashpad env.processType.isEmpty env.processType ∈ rest
          else Event.initBreakpad env.processType ∈ rest))
    ∧ (∀ ops : List Op, (∀ b, Op.setUploadToServer b ∉ ops) →
        GetUploadToServer (runOps (Start env a s) ops) = a.uploadToServer) := by
  have hcons : (Start env a s).consent = a.uploadToServer := by
    by_cases hcp : env.crashpadEnabled = true
    · rw [Start_crashpad_path env a s hinit hcp]
    · have hcf : env.crashpadEnabled = false := by simpa using hcp
      rw [Start_legacy_path env a s hinit hcf]
  have hinit1 : (Start env a s).initialized = true := by
    by_cases hcp : env.crashpadEnabled = true
    · rw [Start_crashpad_path env a s hinit hcp]
    · have hcf : env.crashpadEnabled = false := by simpa using hcp
      rw [Start_legacy_path env a s hinit hcf]
  refine ⟨hcons, ?_, ?_⟩
  · by_cases hcp : env.crashpadEnabled = true
    · refine ⟨[Event.initCrashpad env.processType.isEmpty env.processType], ?_, ?_⟩
      · rw [Start_crashpad_path env a s hinit hcp]
      · simp [hcp]
    · have hcf : env.crashpadEnabled = false := by simpa using hcp
      refine ⟨[Event.setUploadURL a.submitUrl] ++
          a.extraGlobal.map (fun p => Event.globalMerge p.1 p.2) ++
          a.extra.map (fun p => Event.setCrashKey p.1 p.2) ++
          a.extraGlobal.map (fun p => Event.setCrashKey p.1 p.2) ++
          [Event.initBreakpad env.processType], ?_, ?_⟩
      · rw [Start_legacy_path env a s hinit hcf]
        simp
      · simp [hcf]
  · intro ops hops
    unfold GetUploadToServer
    rw [runOps_preserves_consent ops (Start env a s) hinit1 hops, hcons]

/-- Witness for C4: on the structured path at concrete inputs, the
recorded consent is read back, also after a later key operation. -/
theorem start_records_consent_before_branch_witness :
    GetUploadToServer (Start envCrashpad argsA initState) = true
    ∧ GetUploadToServer
        (runOps (Start envCrashpad argsA initState)
          [Op.removeExtraParameter "x"]) = true :=
  ⟨(start_records_consent_before_branch envCrashpad argsA initState rfl).1,
   (start_records_consent_before_branch envCrashpad argsA initState rfl).2.2
      [Op.removeExtraParameter "x"]
      (by intro b hb; simp at hb)⟩

/-- C5: on a first `Start` call with the structured backend enabled,
the crash-key state is left unchanged (no write to the global key
table, no key applied to any backend), `submitUrl` is not used (any
value gives the same resulting state), and only the consent recording
and the structured-backend initialization with the process role
occur. -/
theorem start_crashpad_no_key_writes (env : Env) (a : StartArgs)
    (s : PState) (hinit : s.initialized = false)
    (hcp : env.crashpadEnabled = true) :
    (Start env a s).globalCrashKeys = s.globalCrashKeys
    ∧ (Start env a s).backendKeys = s.backendKeys
    ∧ (Start env a s).breakpadURL = s.breakpadURL
    ∧ (∀ url : String, Start env { a with submitUrl := url } s = Start env a s)
    ∧ Start env a s =
        { s with initialized := true
                 consent := a.uploadToServer
                 crashpadInit := some (env.processType.isEmpty, env.processType)
                 trace := s.trace ++
                   [Event.consentSet a.uploadToServer,
                    Event.initCrashpad env.processType.isEmpty env.processType] } := by
  have h := Start_crashpad_path env a s hinit hcp
  refine ⟨by rw [h], by rw [h], by rw [h], ?_, h⟩
  intro url
  rw [Start_crashpad_path env { a with submitUrl := url } s hinit hcp, h]

/-- Witness for C5 at concrete inputs: the first `Start` on the
structured path leaves the empty key tables empty and a different
submit URL gives the same state. -/
theorem start_crashpad_no_key_writes_witness :
    (Start envCrashpad argsA initState).globalCrashKeys = []
    ∧ (Start envCrashpad argsA initState).backendKeys = []
    ∧ Start envCrashpad { argsA with submitUrl := "other" } initState =
        Start envCrashpad argsA initState :=
  ⟨(start_crashpad_no_key_writes envCrashpad argsA initState rfl rfl).1,
   (start_crashpad_no_key_writes envCrashpad argsA initState rfl rfl).2.1,
   (start_crashpad_no_key_writes envCrashpad argsA initState rfl rfl).2.2.2.1 "other"⟩

/-- C6: `CreateCrashUploadList` returns the structured (Crashpad)
reader unconditionally on macOS/Windows; on every other platform it
returns the structured reader when the structured backend is enabled
and otherwise a text-log reader whose path is the crash-dump directory
joined with the fixed reporter-log filename. -/
theorem createCrashUploadList_selection (env : Env) :
    (env.isMacOrWin = true →
      CreateCrashUploadList env = UploadListKind.crashpad)
    ∧ (env.isMacOrWin = false → env.crashpadEnabled = true →
      CreateCrashUploadList env = UploadListKind.crashpad)
    ∧ (env.isMacOrWin = false → env.crashpadEnabled = false →
      CreateCrashUploadList env =
        UploadListKind.textLog
          (env.crashDumpsDir ++ "/" ++ kReporterLogFilename)) := by
  refine ⟨?_, ?_, ?_⟩ <;> intro h <;>
    simp [CreateCrashUploadList, h]

/-- Witness for C6 at the three concrete environments. -/
theorem createCrashUploadList_selection_witness :
    CreateCrashUploadList envMacWin = UploadListKind.crashpad
    ∧ CreateCrashUploadList envCrashpad = UploadListKind.crashpad
    ∧ CreateCrashUploadList envLegacy =
        UploadListKind.textLog ("/tmp/dumps" ++ "/" ++ kReporterLogFilename) :=
  ⟨(createCrashUploadList_selection envMacWin).1 rfl,
   (createCrashUploadList_selection envCrashpad).2.1 rfl rfl,
   (createCrashUploadList_selection envLegacy).2.2 rfl rfl⟩

/-- C7: `AddExtraParameter(k, v1)` followed by `AddExtraParameter(k,
v2)` leaves the key table associating only `v2` with `k` (other keys
unchanged); the two calls leave the same key table as a single
`AddExtraParameter(k, v2)`, and in particular repeating the same
`(k, v)` pair leaves the key table unchanged (idempotent upsert). -/
theorem addExtraParameter_upsert :
    ∀ (s : PState) (k v1 v2 : String),
      lookupKey (SetCrashKey k v2 (SetCrashKey k v1 s)).backendKeys k = some v2
      ∧ (∀ q, q ≠ k →
          lookupKey (SetCrashKey k v2 (SetCrashKey k v1 s)).backendKeys q =
            lookupKey s.backendKeys q)
      ∧ (SetCrashKey k v2 (SetCrashKey k v1 s)).backendKeys =
          (SetCrashKey k v2 s).backendKeys
      ∧ (SetCrashKey k v2 (SetCrashKey k v2 s)).backendKeys =
          (SetCrashKey k v2 s).backendKeys := by
  intro s k v1 v2
  refine ⟨?_, ?_, ?_, ?_⟩
  · simp [SetCrashKey, lookupKey_insertKey_self]
  · intro q hq
    simp only [SetCrashKey]
    rw [lookupKey_insertKey_ne _ _ _ _ hq, lookupKey_insertKey_ne _ _ _ _ hq]
  · simp [SetCrashKey, insertKey_insertKey_same_key]
  · simp [SetCrashKey, insertKey_insertKey_same_key]

/-- Witness for C7 at concrete inputs: overwritten value read back,
an unrelated key untouched, and the repeated pair a no-op on the
table. -/
theorem addExtraParameter_upsert_witness :
    lookupKey (SetCrashKey "a" "2" (SetCrashKey "a" "1" initState)).backendKeys
        "a" = some "2"
    ∧ lookupKey (SetCrashKey "a" "2" (SetCrashKey "a" "1" initState)).backendKeys
        "b" = lookupKey initState.backendKeys "b"
    ∧ (SetCrashKey "a" "2" (SetCrashKey "a" "2" initState)).backendKeys =
        (SetCrashKey "a" "2" initState).backendKeys :=
  ⟨(addExtraParameter_upsert initState "a" "1" "2").1,
   (addExtraParameter_upsert initState "a" "1" "2").2.1 "b" (by decide),
   (addExtraParameter_upsert initState "a" "2" "2").2.2.2⟩

/-- C8: `RemoveExtraParameter(k)` on a key absent from the key table
returns the state unchanged (and raises no error: the operation is
total); on a table without repeated keys it removes exactly the entry
for `k`, every other key keeping its value. -/
theorem removeExtraParameter_absent_noop :
    ∀ (s : PState) (k : String),
      (lookupKey s.backendKeys k = none → ClearCrashKey k s = s)
      ∧ (NoDupKeys s.backendKeys →
          lookupKey (ClearCrashKey k s).backendKeys k = none)
      ∧ (∀ q, q ≠ k →
          lookupKey (ClearCrashKey k s).backendKeys q =
            lookupKey s.backendKeys q) := by
  intro s k
  refine ⟨?_, ?_, ?_⟩
  · intro h
    unfold ClearCrashKey
    rw [eraseKey_absent _ _ h]
  · intro hnd
    simpa [ClearCrashKey] using lookupKey_eraseKey_self s.backendKeys k hnd
  · intro q hq
    simpa [ClearCrashKey] using lookupKey_eraseKey_ne s.backendKeys k q hq

/-- Witness for C8 at concrete inputs: removing an absent key is the
identity on the whole state, and removing a present key removes
exactly its entry. -/
theorem removeExtraParameter_absent_noop_witness :
    ClearCrashKey "b" (SetCrashKey "a" "1" initState) =
      SetCrashKey "a" "1" initState
    ∧ lookupKey
        (ClearCrashKey "a" (SetCrashKey "a" "1" initState)).backendKeys "a" =
        none
    ∧ lookupKey
        (ClearCrashKey "a" (SetCrashKey "a" "1" initState)).backendKeys "b" =
        lookupKey (SetCrashKey "a" "1" initState).backendKeys "b" :=
  ⟨(removeExtraParameter_absent_noop (SetCrashKey "a" "1" initState) "b").1 rfl,
   (removeExtraParameter_absent_noop (SetCrashKey "a" "1" initState) "a").2.1
      (by decide),
   (removeExtraParameter_absent_noop (SetCrashKey "a" "1" initState) "a").2.2
      "b" (by decide)⟩

/-- C9: the arguments `crashesDirectory`, `ignoreSystemCrashHandler`,
`rateLimit` and `compress` are never read by `Start`: two calls whose
arguments differ only in those four fields produce identical states,
on every path. -/
theorem start_ignores_four_arguments :
    ∀ (env : Env) (a : StartArgs) (cd : String) (ig rl cp : Bool) (s : PState),
      Start env
        { a with crashesDirectory := cd, ignoreSystemCrashHandler := ig,
                 rateLimit := rl, compress := cp } s = Start env a s := by
  intro env a cd ig rl cp s
  rfl

/-- C10: on the structured path, the first `Start` call initializes the
structured backend with first argument `process_type.empty()` — true
exactly when the role string from the command line is empty — and
passes the role string itself through unchanged as the second
argument. -/
theorem start_crashpad_embedder_flag (env : Env) (a : StartArgs) (s : PState)
    (hinit : s.initialized = false) (hcp : env.crashpadEnabled = true) :
    (Start env a s).crashpadInit =
      some (env.processType.isEmpty, env.processType)
    ∧ (env.processType.isEmpty = true ↔ env.processType = "") := by
  refine ⟨by rw [Start_crashpad_path env a s hinit hcp], ?_⟩
  exact String.isEmpty_iff env.processType

/-- Witness for C10: with the empty process type, the structured
backend receives `(true, "")`. -/
theorem start_crashpad_embedder_flag_witness :
    (Start envCrashpad argsA initState).crashpadInit = some (true, "")
    ∧ (("" : String).isEmpty = true ↔ ("" : String) = "") :=
  ⟨(start_crashpad_embedder_flag envCrashpad argsA initState rfl rfl).1,
   (start_crashpad_embedder_flag envCrashpad argsA initState rfl rfl).2⟩

end CrashReporter
